import Mathlib

/-!
Shallow embedding of
`DeepFactors/thirdparty/vision_core/sources/Image/FiltersGPU.cpp`:
the CUDA bilateral-filter kernels `Kernel_bilateral` and
`Kernel_bilateralLimited`, and their host launchers `vc::image::bilateral`
(unconditional and threshold-limited overloads).

The C++ code is a template over a scalar type `T`; here `T` is a variable
`F` over any linear ordered field (exact arithmetic standing in for the
floating-point instantiation), and the overloaded C++ `exp` is a function
parameter `fexp`.  Theorems assume of `fexp` only what the real exponential
satisfies: `fexp 0 = 1` and strict positivity.

The image-view class `vc::Buffer2DView` (its `inBounds`,
`getWithClampedRange`, element access) and the launch-shape helper
`vc::InitDimFromBufferOver` are code of this repository that is not under
`src/`; those parts are modelled from the spec, as marked in the doc
comments below.  The kernel bodies and the launcher logic are translated
directly from `FiltersGPU.cpp`.
-/

set_option linter.unusedSectionVars false

namespace FiltersGPU

/-- Modelled from the spec: the 2D image view `vc::Buffer2DView` (class not
under `src/`): a two-dimensional rectangular array of scalar samples,
identified by `(width, height)` in pixels, with indexed element access. -/
structure Buffer2DView (F : Type) where
  width : Nat
  height : Nat
  data : Nat → Nat → F

variable {F : Type} [LinearOrderedField F]

/-- Modelled from the spec: the in-bounds test `Buffer2DView::inBounds`
(not under `src/`): `(x, y)` lies inside the rectangle. -/
def Buffer2DView.inBounds (b : Buffer2DView F) (x y : Nat) : Prop :=
  x < b.width ∧ y < b.height

instance (b : Buffer2DView F) (x y : Nat) : Decidable (b.inBounds x y) :=
  inferInstanceAs (Decidable (_ ∧ _))

/-- Modelled from the spec: clamping of one integer coordinate into
`[0, n-1]` (edge replication: the nearest in-bounds coordinate is
substituted). -/
def clampCoord (n : Nat) (v : Int) : Nat :=
  min v.toNat (n - 1)

/-- Modelled from the spec: the clamped-coordinate read
`Buffer2DView::getWithClampedRange` (not under `src/`): when `(x, y)` lies
outside the rectangle, the nearest in-bounds coordinate is substituted. -/
def Buffer2DView.getWithClampedRange (b : Buffer2DView F) (x y : Int) : F :=
  b.data (clampCoord b.width x) (clampCoord b.height y)

/-- A single element write `img(x, y) = v`. -/
def Buffer2DView.writeAt (b : Buffer2DView F) (x y : Nat) (v : F) :
    Buffer2DView F :=
  { b with data := fun u w => if u = x ∧ w = y then v else b.data u w }

/-- The window offsets `(r, c)` visited by the two nested loops of either
kernel: `for r in [-dim, +dim], for c in [-dim, +dim]`. -/
def window (dim : Nat) : Finset (Int × Int) :=
  Finset.Icc (-(dim : Int)) (dim : Int) ×ˢ Finset.Icc (-(dim : Int)) (dim : Int)

/-- The window always contains the center offset `(0, 0)`. -/
def window_aux (dim : Nat) : (window dim).Nonempty :=
  ⟨(0, 0), by simp only [window, Finset.mem_product, Finset.mem_Icc]; omega⟩

/-- One loop iteration's weight `w = sw * iw` (`FiltersGPU.cpp` lines 62-67
and 123-128): `sd2 = r*r + c*c` (computed in `int`), `idd = p - q`,
`id2 = idd*idd`, `sw = exp(-(sd2) / (2*gs*gs))`,
`iw = exp(-(id2) / (2*gr*gr))`. -/
def bilateralWeight (fexp : F → F) (gs gr p q : F) (r c : Int) : F :=
  let sd2 : F := ((r * r + c * c : Int) : F)
  let idd : F := p - q
  let id2 : F := idd * idd
  let sw : F := fexp (-sd2 / (2 * gs * gs))
  let iw : F := fexp (-id2 / (2 * gr * gr))
  sw * iw

/-- The accumulator `sumw` of `Kernel_bilateral` after both loops
(`FiltersGPU.cpp` lines 55-71): every neighbor contributes. -/
def bilateralSumw (fexp : F → F) (img_in : Buffer2DView F) (gs gr : F)
    (dim : Nat) (x y : Nat) : F :=
  ∑ rc in window dim,
    bilateralWeight fexp gs gr (img_in.data x y)
      (img_in.getWithClampedRange ((x : Int) + rc.2) ((y : Int) + rc.1))
      rc.1 rc.2

/-- The accumulator `sum` of `Kernel_bilateral` after both loops
(`FiltersGPU.cpp` lines 54-71): `sum += w * q`. -/
def bilateralSum (fexp : F → F) (img_in : Buffer2DView F) (gs gr : F)
    (dim : Nat) (x y : Nat) : F :=
  ∑ rc in window dim,
    bilateralWeight fexp gs gr (img_in.data x y)
      (img_in.getWithClampedRange ((x : Int) + rc.2) ((y : Int) + rc.1))
      rc.1 rc.2
    * img_in.getWithClampedRange ((x : Int) + rc.2) ((y : Int) + rc.1)

/-- The quotient `sum / sumw` computed and written at line 73 of
`Kernel_bilateral`, before the final overwrite of line 74. -/
def bilateralPixel (fexp : F → F) (img_in : Buffer2DView F) (gs gr : F)
    (dim : Nat) (x y : Nat) : F :=
  bilateralSum fexp img_in gs gr dim x y /
    bilateralSumw fexp img_in gs gr dim x y

/-- The body of `Kernel_bilateral` for the thread at `(x, y)`
(`FiltersGPU.cpp` lines 44-76).  When `(x, y)` is in bounds the thread
writes `sum / sumw` (line 73) and then overwrites the same cell with
`smem(0)` (line 74), a read from the zero-size uninitialized dynamic shared
memory `vc::SharedMemory<float> smem`; the indeterminate residual content
of that memory is the parameter `smem0`.  Out-of-bounds threads write
nothing. -/
def Kernel_bilateral_thread (fexp : F → F)
    (img_in img_out : Buffer2DView F) (gs gr : F) (dim : Nat) (smem0 : F)
    (x y : Nat) : Buffer2DView F :=
  if img_in.inBounds x y then
    (img_out.writeAt x y (bilateralPixel fexp img_in gs gr dim x y)).writeAt
      x y smem0
  else
    img_out

/-- Modelled from the spec for the grid shape: the launch derived by
`vc::InitDimFromBufferOver` (not under `src/`) covers every pixel with
exactly one thread, and each thread writes only its own cell, so the
buffer after the launch of `Kernel_bilateral` holds at `(x, y)` what the
thread at `(x, y)` left there. -/
def Kernel_bilateral_run (fexp : F → F)
    (img_in img_out : Buffer2DView F) (gs gr : F) (dim : Nat) (smem0 : F) :
    Buffer2DView F :=
  { width := img_out.width
    height := img_out.height
    data := fun x y =>
      (Kernel_bilateral_thread fexp img_in img_out gs gr dim smem0 x y).data
        x y }

/-- The accumulator `sumw` of `Kernel_bilateralLimited` after both loops
(`FiltersGPU.cpp` lines 111-134): the loops run only when `p >= minval`,
and an iteration contributes only when `q >= minval`. -/
def bilateralLimitedSumw (fexp : F → F) (img_in : Buffer2DView F)
    (gs gr minval : F) (dim : Nat) (x y : Nat) : F :=
  if minval ≤ img_in.data x y then
    ∑ rc in window dim,
      (if minval ≤
          img_in.getWithClampedRange ((x : Int) + rc.2) ((y : Int) + rc.1)
        then
          bilateralWeight fexp gs gr (img_in.data x y)
            (img_in.getWithClampedRange ((x : Int) + rc.2) ((y : Int) + rc.1))
            rc.1 rc.2
        else 0)
  else 0

/-- The accumulator `sum` of `Kernel_bilateralLimited` after both loops
(`FiltersGPU.cpp` lines 111-134). -/
def bilateralLimitedSum (fexp : F → F) (img_in : Buffer2DView F)
    (gs gr minval : F) (dim : Nat) (x y : Nat) : F :=
  if minval ≤ img_in.data x y then
    ∑ rc in window dim,
      (if minval ≤
          img_in.getWithClampedRange ((x : Int) + rc.2) ((y : Int) + rc.1)
        then
          bilateralWeight fexp gs gr (img_in.data x y)
            (img_in.getWithClampedRange ((x : Int) + rc.2) ((y : Int) + rc.1))
            rc.1 rc.2
          * img_in.getWithClampedRange ((x : Int) + rc.2) ((y : Int) + rc.1)
        else 0)
  else 0

/-- The quotient `sum / sumw` written at line 136 of
`Kernel_bilateralLimited`. -/
def bilateralLimitedPixel (fexp : F → F) (img_in : Buffer2DView F)
    (gs gr minval : F) (dim : Nat) (x y : Nat) : F :=
  bilateralLimitedSum fexp img_in gs gr minval dim x y /
    bilateralLimitedSumw fexp img_in gs gr minval dim x y

/-- The body of `Kernel_bilateralLimited` for the thread at `(x, y)`
(`FiltersGPU.cpp` lines 103-138): when `(x, y)` is in bounds it writes
`sum / sumw` to `img_out(x, y)`; there is no further write. -/
def Kernel_bilateralLimited_thread (fexp : F → F)
    (img_in img_out : Buffer2DView F) (gs gr minval : F) (dim : Nat)
    (x y : Nat) : Buffer2DView F :=
  if img_in.inBounds x y then
    img_out.writeAt x y (bilateralLimitedPixel fexp img_in gs gr minval dim x y)
  else
    img_out

/-- Modelled from the spec for the grid shape (as for
`Kernel_bilateral_run`): one thread per pixel, each writing only its own
cell. -/
def Kernel_bilateralLimited_run (fexp : F → F)
    (img_in img_out : Buffer2DView F) (gs gr minval : F) (dim : Nat) :
    Buffer2DView F :=
  { width := img_out.width
    height := img_out.height
    data := fun x y =>
      (Kernel_bilateralLimited_thread fexp img_in img_out gs gr minval dim
        x y).data x y }

/-- The host launcher `vc::image::bilateral` (unconditional overload,
`FiltersGPU.cpp` lines 78-100): if the in/out view shapes differ it throws
`std::runtime_error("In/Out dimensions don\x27t match")` before any device
work (the output view is returned untouched); otherwise it launches
`Kernel_bilateral` over the grid and synchronizes.  The result pairs the
outcome with the state of the output view. -/
def bilateral (fexp : F → F) (img_in img_out : Buffer2DView F)
    (gs gr : F) (dim : Nat) (smem0 : F) :
    Except String Unit × Buffer2DView F :=
  if img_in.width = img_out.width ∧ img_in.height = img_out.height then
    (Except.ok (), Kernel_bilateral_run fexp img_in img_out gs gr dim smem0)
  else
    (Except.error "In/Out dimensions don\x27t match", img_out)

/-- The host launcher `vc::image::bilateral` (threshold-limited overload,
`FiltersGPU.cpp` lines 140-161): same shape check and error, then launches
`Kernel_bilateralLimited`. -/
def bilateralLimited (fexp : F → F) (img_in img_out : Buffer2DView F)
    (gs gr minval : F) (dim : Nat) :
    Except String Unit × Buffer2DView F :=
  if img_in.width = img_out.width ∧ img_in.height = img_out.height then
    (Except.ok (),
      Kernel_bilateralLimited_run fexp img_in img_out gs gr minval dim)
  else
    (Except.error "In/Out dimensions don\x27t match", img_out)

/-- The minimum of the input samples seen through the `(2*dim+1)^2` window
of `(x, y)` (clamped reads), as in the spec's convex-combination bound. -/
def windowMin (img : Buffer2DView F) (dim : Nat) (x y : Nat) : F :=
  (window dim).inf' (window_aux dim)
    (fun rc => img.getWithClampedRange ((x : Int) + rc.2) ((y : Int) + rc.1))

/-- The maximum of the input samples seen through the `(2*dim+1)^2` window
of `(x, y)` (clamped reads), as in the spec's convex-combination bound. -/
def windowMax (img : Buffer2DView F) (dim : Nat) (x y : Nat) : F :=
  (window dim).sup' (window_aux dim)
    (fun rc => img.getWithClampedRange ((x : Int) + rc.2) ((y : Int) + rc.1))

/-- A concrete 1x1 input image holding the sample `5`. -/
def cImg : Buffer2DView ℚ := ⟨1, 1, fun _ _ => 5⟩

/-- A concrete 1x1 output buffer holding `0`. -/
def cOut : Buffer2DView ℚ := ⟨1, 1, fun _ _ => 0⟩

/-- A concrete 3x3 image (spec scenario S5): center and corners `10`, the
four edge neighbors `-1`. -/
def cImg3 : Buffer2DView ℚ :=
  ⟨3, 3, fun u v => if (u = 1 ∧ v = 1) ∨ (u ≠ 1 ∧ v ≠ 1) then 10 else -1⟩

/-- A concrete 3x3 output buffer holding `0`. -/
def cOut3 : Buffer2DView ℚ := ⟨3, 3, fun _ _ => 0⟩

/-- A concrete 4x4 input buffer (spec scenario S6). -/
def cIn44 : Buffer2DView ℚ := ⟨4, 4, fun _ _ => 0⟩

/-- A concrete 4x5 output buffer (spec scenario S6: mismatched shape). -/
def cOut45 : Buffer2DView ℚ := ⟨4, 5, fun _ _ => 0⟩

/-- A concrete 3x3 input buffer for a second mismatched call. -/
def cIn33 : Buffer2DView ℚ := ⟨3, 3, fun _ _ => 0⟩

/-- A concrete 2x7 output buffer for a second mismatched call. -/
def cOut27 : Buffer2DView ℚ := ⟨2, 7, fun _ _ => 0⟩

/-! ### Basic lemmas about the embedding -/

theorem clampCoord_coe {n x : Nat} (hx : x < n) :
    clampCoord n (x : Int) = x := by
  simp only [clampCoord]
  omega

theorem clampCoord_lt {n : Nat} (hn : 0 < n) (v : Int) :
    clampCoord n v < n := by
  simp only [clampCoord]
  omega

theorem getWithClampedRange_inBounds (b : Buffer2DView F) {x y : Nat}
    (hx : x < b.width) (hy : y < b.height) :
    b.getWithClampedRange (x : Int) (y : Int) = b.data x y := by
  simp only [Buffer2DView.getWithClampedRange, clampCoord_coe hx,
    clampCoord_coe hy]

theorem center_mem_window (dim : Nat) : ((0, 0) : Int × Int) ∈ window dim := by
  simp only [window, Finset.mem_product, Finset.mem_Icc]
  omega

theorem bilateralWeight_eq (fexp : F → F) (gs gr p q : F) (r c : Int) :
    bilateralWeight fexp gs gr p q r c =
      fexp (-((r * r + c * c : Int) : F) / (2 * gs * gs)) *
        fexp (-((p - q) * (p - q)) / (2 * gr * gr)) :=
  rfl

theorem bilateralWeight_center (fexp : F → F) (h1 : fexp 0 = 1)
    (gs gr p : F) : bilateralWeight fexp gs gr p p 0 0 = 1 := by
  simp [bilateralWeight_eq, h1]

theorem bilateralWeight_pos (fexp : F → F) (hpos : ∀ t, 0 < fexp t)
    (gs gr p q : F) (r c : Int) : 0 < bilateralWeight fexp gs gr p q r c := by
  rw [bilateralWeight_eq]
  exact mul_pos (hpos _) (hpos _)

theorem Kernel_bilateral_run_data_inBounds (fexp : F → F)
    (img_in img_out : Buffer2DView F) (gs gr : F) (dim : Nat) (smem0 : F)
    {x y : Nat} (h : img_in.inBounds x y) :
    (Kernel_bilateral_run fexp img_in img_out gs gr dim smem0).data x y =
      smem0 := by
  simp [Kernel_bilateral_run, Kernel_bilateral_thread, Buffer2DView.writeAt,
    if_pos h]

theorem Kernel_bilateral_run_data_out (fexp : F → F)
    (img_in img_out : Buffer2DView F) (gs gr : F) (dim : Nat) (smem0 : F)
    {x y : Nat} (h : ¬ img_in.inBounds x y) :
    (Kernel_bilateral_run fexp img_in img_out gs gr dim smem0).data x y =
      img_out.data x y := by
  simp [Kernel_bilateral_run, Kernel_bilateral_thread, if_neg h]

theorem Kernel_bilateralLimited_run_data_inBounds (fexp : F → F)
    (img_in img_out : Buffer2DView F) (gs gr minval : F) (dim : Nat)
    {x y : Nat} (h : img_in.inBounds x y) :
    (Kernel_bilateralLimited_run fexp img_in img_out gs gr minval dim).data
        x y =
      bilateralLimitedPixel fexp img_in gs gr minval dim x y := by
  simp [Kernel_bilateralLimited_run, Kernel_bilateralLimited_thread,
    Buffer2DView.writeAt, if_pos h]

theorem Kernel_bilateralLimited_run_data_out (fexp : F → F)
    (img_in img_out : Buffer2DView F) (gs gr minval : F) (dim : Nat)
    {x y : Nat} (h : ¬ img_in.inBounds x y) :
    (Kernel_bilateralLimited_run fexp img_in img_out gs gr minval dim).data
        x y =
      img_out.data x y := by
  simp [Kernel_bilateralLimited_run, Kernel_bilateralLimited_thread, if_neg h]

theorem bilateralSumw_pos (fexp : F → F) (hpos : ∀ t, 0 < fexp t)
    (img_in : Buffer2DView F) (gs gr : F) (dim : Nat) (x y : Nat) :
    0 < bilateralSumw fexp img_in gs gr dim x y :=
  Finset.sum_pos (fun rc _ => bilateralWeight_pos fexp hpos _ _ _ _ rc.1 rc.2)
    (window_aux dim)

theorem bilateralLimitedSumw_pos (fexp : F → F) (hpos : ∀ t, 0 < fexp t)
    (img_in : Buffer2DView F) (gs gr minval : F) (dim : Nat) {x y : Nat}
    (hx : x < img_in.width) (hy : y < img_in.height)
    (hp : minval ≤ img_in.data x y) :
    0 < bilateralLimitedSumw fexp img_in gs gr minval dim x y := by
  rw [bilateralLimitedSumw, if_pos hp]
  refine Finset.sum_pos' (fun rc _ => ?_) ⟨(0, 0), center_mem_window dim, ?_⟩
  · split
    · exact le_of_lt (bilateralWeight_pos fexp hpos _ _ _ _ rc.1 rc.2)
    · exact le_refl 0
  · have hq : img_in.getWithClampedRange ((x : Int) + (0 : Int))
        ((y : Int) + (0 : Int)) = img_in.data x y := by
      rw [add_zero, add_zero]
      exact getWithClampedRange_inBounds img_in hx hy
    simp only [hq]
    rw [if_pos hp]
    exact bilateralWeight_pos fexp hpos _ _ _ _ 0 0

theorem window_zero : window 0 = {((0 : Int), (0 : Int))} := by
  rw [window]
  norm_num [Finset.Icc_self, Finset.singleton_product_singleton]

theorem bilateralSumw_dim_zero (fexp : F → F) (h1 : fexp 0 = 1)
    (img_in : Buffer2DView F) (gs gr : F) {x y : Nat}
    (hx : x < img_in.width) (hy : y < img_in.height) :
    bilateralSumw fexp img_in gs gr 0 x y = 1 := by
  rw [bilateralSumw, window_zero, Finset.sum_singleton]
  have hq : img_in.getWithClampedRange ((x : Int) + (0 : Int))
      ((y : Int) + (0 : Int)) = img_in.data x y := by
    rw [add_zero, add_zero]
    exact getWithClampedRange_inBounds img_in hx hy
  simp only [hq]
  exact bilateralWeight_center fexp h1 gs gr _

theorem bilateralSum_dim_zero (fexp : F → F) (h1 : fexp 0 = 1)
    (img_in : Buffer2DView F) (gs gr : F) {x y : Nat}
    (hx : x < img_in.width) (hy : y < img_in.height) :
    bilateralSum fexp img_in gs gr 0 x y = img_in.data x y := by
  rw [bilateralSum, window_zero, Finset.sum_singleton]
  have hq : img_in.getWithClampedRange ((x : Int) + (0 : Int))
      ((y : Int) + (0 : Int)) = img_in.data x y := by
    rw [add_zero, add_zero]
    exact getWithClampedRange_inBounds img_in hx hy
  simp only [hq]
  rw [bilateralWeight_center fexp h1 gs gr _, one_mul]

theorem bilateralPixel_dim_zero (fexp : F → F) (h1 : fexp 0 = 1)
    (img_in : Buffer2DView F) (gs gr : F) {x y : Nat}
    (hx : x < img_in.width) (hy : y < img_in.height) :
    bilateralPixel fexp img_in gs gr 0 x y = img_in.data x y := by
  rw [bilateralPixel, bilateralSumw_dim_zero fexp h1 img_in gs gr hx hy,
    bilateralSum_dim_zero fexp h1 img_in gs gr hx hy, div_one]

theorem getWithClampedRange_writeAt (b : Buffer2DView F) (a b' : Nat)
    (v : F) (cx cy : Int) :
    (b.writeAt a b' v).getWithClampedRange cx cy =
      if clampCoord b.width cx = a ∧ clampCoord b.height cy = b' then v
      else b.getWithClampedRange cx cy :=
  rfl

theorem windowMin_le_bilateralPixel (fexp : F → F) (hpos : ∀ t, 0 < fexp t)
    (img_in : Buffer2DView F) (gs gr : F) (dim : Nat) (x y : Nat) :
    windowMin img_in dim x y ≤ bilateralPixel fexp img_in gs gr dim x y := by
  rw [bilateralPixel,
    le_div_iff₀ (bilateralSumw_pos fexp hpos img_in gs gr dim x y),
    bilateralSum, bilateralSumw, Finset.mul_sum]
  refine Finset.sum_le_sum (fun rc hrc => ?_)
  have hq := Finset.inf'_le
    (fun rc : Int × Int =>
      img_in.getWithClampedRange ((x : Int) + rc.2) ((y : Int) + rc.1)) hrc
  calc windowMin img_in dim x y *
        bilateralWeight fexp gs gr (img_in.data x y)
          (img_in.getWithClampedRange ((x : Int) + rc.2) ((y : Int) + rc.1))
          rc.1 rc.2
      ≤ img_in.getWithClampedRange ((x : Int) + rc.2) ((y : Int) + rc.1) *
          bilateralWeight fexp gs gr (img_in.data x y)
            (img_in.getWithClampedRange ((x : Int) + rc.2) ((y : Int) + rc.1))
            rc.1 rc.2 :=
        mul_le_mul_of_nonneg_right hq
          (le_of_lt (bilateralWeight_pos fexp hpos _ _ _ _ rc.1 rc.2))
    _ = bilateralWeight fexp gs gr (img_in.data x y)
          (img_in.getWithClampedRange ((x : Int) + rc.2) ((y : Int) + rc.1))
          rc.1 rc.2 *
          img_in.getWithClampedRange ((x : Int) + rc.2) ((y : Int) + rc.1) :=
        mul_comm _ _

theorem bilateralPixel_le_windowMax (fexp : F → F) (hpos : ∀ t, 0 < fexp t)
    (img_in : Buffer2DView F) (gs gr : F) (dim : Nat) (x y : Nat) :
    bilateralPixel fexp img_in gs gr dim x y ≤ windowMax img_in dim x y := by
  rw [bilateralPixel,
    div_le_iff₀ (bilateralSumw_pos fexp hpos img_in gs gr dim x y),
    bilateralSum, bilateralSumw, Finset.mul_sum]
  refine Finset.sum_le_sum (fun rc hrc => ?_)
  have hq := Finset.le_sup'
    (fun rc : Int × Int =>
      img_in.getWithClampedRange ((x : Int) + rc.2) ((y : Int) + rc.1)) hrc
  calc bilateralWeight fexp gs gr (img_in.data x y)
        (img_in.getWithClampedRange ((x : Int) + rc.2) ((y : Int) + rc.1))
        rc.1 rc.2 *
        img_in.getWithClampedRange ((x : Int) + rc.2) ((y : Int) + rc.1)
      = img_in.getWithClampedRange ((x : Int) + rc.2) ((y : Int) + rc.1) *
          bilateralWeight fexp gs gr (img_in.data x y)
            (img_in.getWithClampedRange ((x : Int) + rc.2) ((y : Int) + rc.1))
            rc.1 rc.2 := mul_comm _ _
    _ ≤ windowMax img_in dim x y *
          bilateralWeight fexp gs gr (img_in.data x y)
            (img_in.getWithClampedRange ((x : Int) + rc.2) ((y : Int) + rc.1))
            rc.1 rc.2 :=
        mul_le_mul_of_nonneg_right hq
          (le_of_lt (bilateralWeight_pos fexp hpos _ _ _ _ rc.1 rc.2))

theorem bilateralLimitedPixel_congr (fexp : F → F) (I1 I2 : Buffer2DView F)
    (gs gr minval : F) (dim : Nat) {x y : Nat}
    (hw : I1.width = I2.width) (hh : I1.height = I2.height)
    (hI : ∀ u v, u < I1.width → v < I1.height → I1.data u v = I2.data u v)
    (hx : x < I1.width) (hy : y < I1.height) :
    bilateralLimitedPixel fexp I1 gs gr minval dim x y =
      bilateralLimitedPixel fexp I2 gs gr minval dim x y := by
  have hget : ∀ cx cy : Int,
      I1.getWithClampedRange cx cy = I2.getWithClampedRange cx cy := by
    intro cx cy
    rw [Buffer2DView.getWithClampedRange, Buffer2DView.getWithClampedRange,
      ← hw, ← hh]
    exact hI _ _ (clampCoord_lt (by omega) cx) (clampCoord_lt (by omega) cy)
  have hp : I1.data x y = I2.data x y := hI x y hx hy
  simp only [bilateralLimitedPixel, bilateralLimitedSum, bilateralLimitedSumw,
    hget, hp]

/-! ### Claims -/

/-- C6: under each variant's precondition `gs > 0`, `gr > 0`, the divisor
`sumw` at the final division is strictly positive: in `Kernel_bilateral`
for every in-bounds pixel (the center offset `(0,0)` contributes weight
`ws*wr = 1` and every other weight is positive), and in
`Kernel_bilateralLimited` for every in-bounds pixel with `p >= minval`
(the center itself satisfies the threshold and is included); hence the
division is well-defined. -/
theorem C6_divisor_positive (fexp : F → F) (hpos : ∀ t, 0 < fexp t)
    (img_in : Buffer2DView F) (gs gr minval : F) (dim : Nat) {x y : Nat}
    (_hgs : 0 < gs) (_hgr : 0 < gr)
    (hx : x < img_in.width) (hy : y < img_in.height) :
    0 < bilateralSumw fexp img_in gs gr dim x y ∧
      (minval ≤ img_in.data x y →
        0 < bilateralLimitedSumw fexp img_in gs gr minval dim x y) :=
  ⟨bilateralSumw_pos fexp hpos img_in gs gr dim x y,
    fun hp =>
      bilateralLimitedSumw_pos fexp hpos img_in gs gr minval dim hx hy hp⟩

/-- Witness for C6 at a concrete input. -/
theorem C6_divisor_positive_witness :
    0 < bilateralSumw (fun _ => (1 : ℚ)) cImg 1 1 1 0 0 ∧
      ((0 : ℚ) ≤ cImg.data 0 0 →
        0 < bilateralLimitedSumw (fun _ => (1 : ℚ)) cImg 1 1 0 1 0 0) :=
  C6_divisor_positive (fun _ => 1) (fun _ => one_pos) cImg 1 1 0 1 one_pos
    one_pos (by norm_num [cImg]) (by norm_num [cImg])

/-- C2: the claim that for `dim == 0` the unconditional filter produces
`O(x,y) == I(x,y)` fails on the code because of the final overwrite at
line 74 of `FiltersGPU.cpp`: the value left in `img_out(x,y)` is the
residual shared-memory content `smem0`, whatever that is, while the
quotient `sum / sumw` computed and written at line 73 — the assignment the
spec designates as correct — does equal `I(x,y)` for `dim = 0`. -/
theorem C2_dim_zero_identity (fexp : F → F) (h1 : fexp 0 = 1)
    (img_in img_out : Buffer2DView F) (gs gr smem0 : F) {x y : Nat}
    (hx : x < img_in.width) (hy : y < img_in.height) :
    (Kernel_bilateral_run fexp img_in img_out gs gr 0 smem0).data x y =
        smem0 ∧
      bilateralPixel fexp img_in gs gr 0 x y = img_in.data x y :=
  ⟨Kernel_bilateral_run_data_inBounds fexp img_in img_out gs gr 0 smem0
      ⟨hx, hy⟩,
    bilateralPixel_dim_zero fexp h1 img_in gs gr hx hy⟩

/-- Witness for C2 at a concrete input: the cell receives the residual
shared-memory value `42`, not the input sample `5`. -/
theorem C2_dim_zero_identity_witness :
    (Kernel_bilateral_run (fun _ => (1 : ℚ)) cImg cOut 1 1 0 42).data 0 0 =
        42 ∧
      bilateralPixel (fun _ => (1 : ℚ)) cImg 1 1 0 0 0 = cImg.data 0 0 :=
  C2_dim_zero_identity (fun _ => 1) rfl cImg cOut 1 1 42
    (by norm_num [cImg]) (by norm_num [cImg])

/-- C3: in `Kernel_bilateralLimited`, at an in-bounds pixel whose value is
below `minval` the loops never run: the accumulators remain `sum = 0` and
`sumw = 0`, and the value written to `O(x,y)` is the quotient
`sum / sumw` — the `0 / 0` of the spec (IEEE-754 NaN in the float
instantiation; the junk value of `0 / 0` in this exact-field model). -/
theorem C3_below_threshold_zero_quotient (fexp : F → F)
    (img_in img_out : Buffer2DView F) (gs gr minval : F) (dim : Nat)
    {x y : Nat} (hx : x < img_in.width) (hy : y < img_in.height)
    (hp : img_in.data x y < minval) :
    bilateralLimitedSum fexp img_in gs gr minval dim x y = 0 ∧
      bilateralLimitedSumw fexp img_in gs gr minval dim x y = 0 ∧
      (Kernel_bilateralLimited_run fexp img_in img_out gs gr minval
          dim).data x y =
        bilateralLimitedSum fexp img_in gs gr minval dim x y /
          bilateralLimitedSumw fexp img_in gs gr minval dim x y := by
  have h := not_le.mpr hp
  exact ⟨by rw [bilateralLimitedSum, if_neg h],
    by rw [bilateralLimitedSumw, if_neg h],
    Kernel_bilateralLimited_run_data_inBounds fexp img_in img_out gs gr
      minval dim ⟨hx, hy⟩⟩

/-- Witness for C3 at a concrete input (`minval = 10`, sample `5`). -/
theorem C3_below_threshold_zero_quotient_witness :
    bilateralLimitedSum (fun _ => (1 : ℚ)) cImg 1 1 10 0 0 0 = 0 ∧
      bilateralLimitedSumw (fun _ => (1 : ℚ)) cImg 1 1 10 0 0 0 = 0 ∧
      (Kernel_bilateralLimited_run (fun _ => (1 : ℚ)) cImg cOut 1 1 10
          0).data 0 0 =
        bilateralLimitedSum (fun _ => (1 : ℚ)) cImg 1 1 10 0 0 0 /
          bilateralLimitedSumw (fun _ => (1 : ℚ)) cImg 1 1 10 0 0 0 :=
  C3_below_threshold_zero_quotient (fun _ => 1) cImg cOut 1 1 10 0
    (by norm_num [cImg]) (by norm_num [cImg]) (by norm_num [cImg])

/-- C9: a thread at a coordinate outside the input rectangle writes
nothing in either kernel (`if(img_in.inBounds(x,y))` gates the whole
body): the output cell keeps its previous content. -/
theorem C9_no_out_of_bounds_write (fexp : F → F)
    (img_in img_out : Buffer2DView F) (gs gr minval smem0 : F) (dim : Nat)
    {x y : Nat} (h : ¬ img_in.inBounds x y) :
    (Kernel_bilateral_run fexp img_in img_out gs gr dim smem0).data x y =
        img_out.data x y ∧
      (Kernel_bilateralLimited_run fexp img_in img_out gs gr minval
          dim).data x y =
        img_out.data x y :=
  ⟨Kernel_bilateral_run_data_out fexp img_in img_out gs gr dim smem0 h,
    Kernel_bilateralLimited_run_data_out fexp img_in img_out gs gr minval
      dim h⟩

/-- Witness for C9 at the out-of-bounds coordinate `(5, 0)` of a 1x1
image. -/
theorem C9_no_out_of_bounds_write_witness :
    (Kernel_bilateral_run (fun _ => (1 : ℚ)) cImg cOut 1 1 1 42).data 5 0 =
        cOut.data 5 0 ∧
      (Kernel_bilateralLimited_run (fun _ => (1 : ℚ)) cImg cOut 1 1 0
          1).data 5 0 =
        cOut.data 5 0 :=
  C9_no_out_of_bounds_write (fun _ => 1) cImg cOut 1 1 0 42 1 (by decide)

/-- C8: in `Kernel_bilateralLimited`, at an in-bounds pixel with
`I(x,y) >= minval` the value written to `O(x,y)` is itself `>= minval`:
it is a convex combination of the included window values, which are all
`>= minval`. -/
theorem C8_limited_preserves_minval (fexp : F → F) (hpos : ∀ t, 0 < fexp t)
    (img_in img_out : Buffer2DView F) (gs gr minval : F) (dim : Nat)
    {x y : Nat} (hx : x < img_in.width) (hy : y < img_in.height)
    (hp : minval ≤ img_in.data x y) :
    minval ≤
      (Kernel_bilateralLimited_run fexp img_in img_out gs gr minval
        dim).data x y := by
  rw [Kernel_bilateralLimited_run_data_inBounds fexp img_in img_out gs gr
    minval dim ⟨hx, hy⟩]
  have hW := bilateralLimitedSumw_pos fexp hpos img_in gs gr minval dim hx
    hy hp
  rw [bilateralLimitedPixel, le_div_iff₀ hW, bilateralLimitedSum,
    bilateralLimitedSumw, if_pos hp, if_pos hp, Finset.mul_sum]
  refine Finset.sum_le_sum (fun rc _ => ?_)
  by_cases hq : minval ≤
      img_in.getWithClampedRange ((x : Int) + rc.2) ((y : Int) + rc.1)
  · rw [if_pos hq, if_pos hq]
    have hw := le_of_lt
      (bilateralWeight_pos fexp hpos gs gr (img_in.data x y)
        (img_in.getWithClampedRange ((x : Int) + rc.2) ((y : Int) + rc.1))
        rc.1 rc.2)
    calc minval *
          bilateralWeight fexp gs gr (img_in.data x y)
            (img_in.getWithClampedRange ((x : Int) + rc.2)
              ((y : Int) + rc.1)) rc.1 rc.2
        = bilateralWeight fexp gs gr (img_in.data x y)
            (img_in.getWithClampedRange ((x : Int) + rc.2)
              ((y : Int) + rc.1)) rc.1 rc.2 * minval := mul_comm _ _
      _ ≤ bilateralWeight fexp gs gr (img_in.data x y)
            (img_in.getWithClampedRange ((x : Int) + rc.2)
              ((y : Int) + rc.1)) rc.1 rc.2 *
            img_in.getWithClampedRange ((x : Int) + rc.2)
              ((y : Int) + rc.1) := mul_le_mul_of_nonneg_left hq hw
  · rw [if_neg hq, if_neg hq, mul_zero]

/-- Witness for C8 at the center of the concrete S5 image
(`minval = 0`). -/
theorem C8_limited_preserves_minval_witness :
    (0 : ℚ) ≤
      (Kernel_bilateralLimited_run (fun _ => (1 : ℚ)) cImg3 cOut3 1 1 0
        1).data 1 1 :=
  C8_limited_preserves_minval (fun _ => 1) (fun _ => one_pos) cImg3 cOut3
    1 1 0 1 (by norm_num [cImg3]) (by norm_num [cImg3])
    (by norm_num [cImg3])

/-- C4: in `Kernel_bilateralLimited`, at an in-bounds pixel with
`p = I(x,y) >= minval`, replacing a pixel whose value is below `minval`
(hence excluded by the `if(q >= minval)` guard wherever the window reads
it) by any other value below `minval` leaves the value written to
`O(x,y)` unchanged: sub-threshold neighbors contribute to neither `sum`
nor `sumw`. -/
theorem C4_subthreshold_neighbor_irrelevant (fexp : F → F)
    (img_in img_out : Buffer2DView F) (gs gr minval vq : F) (dim : Nat)
    {x y a b : Nat}
    (hx : x < img_in.width) (hy : y < img_in.height)
    (hp : minval ≤ img_in.data x y)
    (hab : img_in.data a b < minval) (hv : vq < minval) :
    (Kernel_bilateralLimited_run fexp (img_in.writeAt a b vq) img_out gs gr
        minval dim).data x y =
      (Kernel_bilateralLimited_run fexp img_in img_out gs gr minval
        dim).data x y := by
  have hne : ¬(x = a ∧ y = b) := by
    rintro ⟨rfl, rfl⟩
    exact absurd hp (not_le.mpr hab)
  have hpx : (img_in.writeAt a b vq).data x y = img_in.data x y := if_neg hne
  have hin2 : (img_in.writeAt a b vq).inBounds x y := ⟨hx, hy⟩
  rw [Kernel_bilateralLimited_run_data_inBounds fexp (img_in.writeAt a b vq)
      img_out gs gr minval dim hin2,
    Kernel_bilateralLimited_run_data_inBounds fexp img_in img_out gs gr
      minval dim ⟨hx, hy⟩,
    bilateralLimitedPixel, bilateralLimitedPixel]
  congr 1
  · rw [bilateralLimitedSum, bilateralLimitedSum, hpx]
    refine if_congr Iff.rfl ?_ rfl
    refine Finset.sum_congr rfl (fun rc _ => ?_)
    rw [getWithClampedRange_writeAt]
    by_cases hcase : clampCoord img_in.width ((x : Int) + rc.2) = a ∧
        clampCoord img_in.height ((y : Int) + rc.1) = b
    · rw [if_pos hcase, if_neg (not_le.mpr hv)]
      have hq1 : img_in.getWithClampedRange ((x : Int) + rc.2)
          ((y : Int) + rc.1) = img_in.data a b := by
        rw [Buffer2DView.getWithClampedRange, hcase.1, hcase.2]
      rw [hq1, if_neg (not_le.mpr hab)]
    · rw [if_neg hcase]
  · rw [bilateralLimitedSumw, bilateralLimitedSumw, hpx]
    refine if_congr Iff.rfl ?_ rfl
    refine Finset.sum_congr rfl (fun rc _ => ?_)
    rw [getWithClampedRange_writeAt]
    by_cases hcase : clampCoord img_in.width ((x : Int) + rc.2) = a ∧
        clampCoord img_in.height ((y : Int) + rc.1) = b
    · rw [if_pos hcase, if_neg (not_le.mpr hv)]
      have hq1 : img_in.getWithClampedRange ((x : Int) + rc.2)
          ((y : Int) + rc.1) = img_in.data a b := by
        rw [Buffer2DView.getWithClampedRange, hcase.1, hcase.2]
      rw [hq1, if_neg (not_le.mpr hab)]
    · rw [if_neg hcase]

/-- Witness for C4 on the concrete S5 image: rewriting the sub-threshold
edge neighbor `(1, 0)` from `-1` to `-5` leaves the center output
unchanged. -/
theorem C4_subthreshold_neighbor_irrelevant_witness :
    (Kernel_bilateralLimited_run (fun _ => (1 : ℚ))
        (cImg3.writeAt 1 0 (-5)) cOut3 1 1 0 1).data 1 1 =
      (Kernel_bilateralLimited_run (fun _ => (1 : ℚ)) cImg3 cOut3 1 1 0
        1).data 1 1 :=
  C4_subthreshold_neighbor_irrelevant (fun _ => 1) cImg3 cOut3 1 1 0 (-5) 1
    (by norm_num [cImg3]) (by norm_num [cImg3]) (by norm_num [cImg3])
    (by norm_num [cImg3]) (by norm_num)

/-- C1: the claim that `Kernel_bilateral` writes `O(x,y) = S / W` fails on
the code as written: after computing and writing `sum / sumw` (line 73)
the kernel overwrites `O(x,y)` with `smem(0)` (line 74), a read of
uninitialized zero-size dynamic shared memory.  At the concrete 1x1 input
`[[5]]` with `gs = gr = 1`, `dim = 0` and residual shared-memory content
`3`, the cell ends at `3` while `S / W = 5`. -/
theorem C1_final_write_not_quotient :
    (Kernel_bilateral_run (fun _ => (1 : ℚ)) cImg cOut 1 1 0 3).data 0 0 =
        3 ∧
      bilateralSum (fun _ => (1 : ℚ)) cImg 1 1 0 0 0 /
          bilateralSumw (fun _ => (1 : ℚ)) cImg 1 1 0 0 0 = 5 ∧
      (3 : ℚ) ≠ 5 := by
  have h : bilateralPixel (fun _ => (1 : ℚ)) cImg 1 1 0 0 0 =
      cImg.data 0 0 :=
    bilateralPixel_dim_zero (fun _ => (1 : ℚ)) rfl cImg 1 1
      (by norm_num [cImg]) (by norm_num [cImg])
  exact ⟨Kernel_bilateral_run_data_inBounds (fun _ => 1) cImg cOut 1 1 0 3
      ⟨by norm_num [cImg], by norm_num [cImg]⟩,
    h.trans rfl, by norm_num⟩

/-- C7: the convex-combination bound
`min_window I <= O(x,y) <= max_window I` fails on `Kernel_bilateral` as
written: the final overwrite (line 74) leaves the residual shared-memory
content in `O(x,y)`.  At the 1x1 input `[[5]]` (all window values `5`)
with residual content `7` the output is `7`, above the window maximum;
the quotient `sum / sumw` computed at line 73 does satisfy the bound. -/
theorem C7_convex_bound_violated :
    windowMax cImg 0 0 0 = 5 ∧
      (Kernel_bilateral_run (fun _ => (1 : ℚ)) cImg cOut 1 1 0 7).data 0 0 =
        7 ∧
      ¬ ((Kernel_bilateral_run (fun _ => (1 : ℚ)) cImg cOut 1 1 0 7).data
            0 0 ≤
          windowMax cImg 0 0 0) ∧
      windowMin cImg 0 0 0 ≤
        bilateralPixel (fun _ => (1 : ℚ)) cImg 1 1 0 0 0 ∧
      bilateralPixel (fun _ => (1 : ℚ)) cImg 1 1 0 0 0 ≤
        windowMax cImg 0 0 0 := by
  have hmax : windowMax cImg 0 0 0 = (5 : ℚ) := by
    show (window 0).sup' (window_aux 0) (fun _ => (5 : ℚ)) = 5
    exact Finset.sup'_const (window_aux 0) 5
  have hrun : (Kernel_bilateral_run (fun _ => (1 : ℚ)) cImg cOut 1 1 0
      7).data 0 0 = 7 :=
    Kernel_bilateral_run_data_inBounds (fun _ => 1) cImg cOut 1 1 0 7
      ⟨by norm_num [cImg], by norm_num [cImg]⟩
  refine ⟨hmax, hrun, ?_,
    windowMin_le_bilateralPixel (fun _ => 1) (fun _ => one_pos) cImg 1 1 0
      0 0,
    bilateralPixel_le_windowMax (fun _ => 1) (fun _ => one_pos) cImg 1 1 0
      0 0⟩
  rw [hrun, hmax]
  norm_num

/-- C5 counterexample: the shape-mismatch error does not carry the two
shapes — two calls with different mismatched shape pairs produce the very
same error value, the fixed message of `FiltersGPU.cpp` line 86. -/
theorem C5_message_carries_no_shapes :
    (bilateral (fun _ => (1 : ℚ)) cIn44 cOut45 1 1 1 0).1 =
        (bilateral (fun _ => (1 : ℚ)) cIn33 cOut27 1 1 1 0).1 ∧
      (bilateral (fun _ => (1 : ℚ)) cIn44 cOut45 1 1 1 0).1 =
        Except.error "In/Out dimensions don\x27t match" ∧
      (bilateralLimited (fun _ => (1 : ℚ)) cIn44 cOut45 1 1 0 1).1 =
        Except.error "In/Out dimensions don\x27t match" :=
  ⟨rfl, rfl, rfl⟩

/-- C5 (amended): for both launcher overloads, a width or height mismatch
between the views makes the call fail at entry, before any device work
and before any write to the output view, with the fixed error message
`"In/Out dimensions don't match"` (which does not include the shapes). -/
theorem C5_shape_mismatch_at_entry (fexp : F → F)
    (img_in img_out : Buffer2DView F) (gs gr minval smem0 : F) (dim : Nat)
    (hmis :
      ¬(img_in.width = img_out.width ∧ img_in.height = img_out.height)) :
    bilateral fexp img_in img_out gs gr dim smem0 =
        (Except.error "In/Out dimensions don\x27t match", img_out) ∧
      bilateralLimited fexp img_in img_out gs gr minval dim =
        (Except.error "In/Out dimensions don\x27t match", img_out) :=
  ⟨by rw [bilateral, if_neg hmis], by rw [bilateralLimited, if_neg hmis]⟩

/-- Witness for C5 (amended) at the concrete S6 shapes 4x4 vs 4x5. -/
theorem C5_shape_mismatch_at_entry_witness :
    bilateral (fun _ => (1 : ℚ)) cIn44 cOut45 1 1 1 0 =
        (Except.error "In/Out dimensions don\x27t match", cOut45) ∧
      bilateralLimited (fun _ => (1 : ℚ)) cIn44 cOut45 1 1 0 1 =
        (Except.error "In/Out dimensions don\x27t match", cOut45) :=
  C5_shape_mismatch_at_entry (fun _ => 1) cIn44 cOut45 1 1 0 0 1 (by decide)

/-- C10: determinism holds for `Kernel_bilateralLimited` — element-wise
equal input views, equal output views and equal parameters give the same
value at every cell — but fails for `Kernel_bilateral` as written: its
result depends on the residual content of the uninitialized shared memory
read at line 74, so two runs over identical inputs and parameters can
disagree, as the concrete 1x1 run shows. -/
theorem C10_determinism (fexp : F → F) (I1 I2 O1 O2 : Buffer2DView F)
    (gs gr minval : F) (dim : Nat) (x y : Nat)
    (hw : I1.width = I2.width) (hh : I1.height = I2.height)
    (hI : ∀ u v, u < I1.width → v < I1.height → I1.data u v = I2.data u v)
    (hO : ∀ u v, O1.data u v = O2.data u v) :
    (Kernel_bilateralLimited_run fexp I1 O1 gs gr minval dim).data x y =
        (Kernel_bilateralLimited_run fexp I2 O2 gs gr minval dim).data x y ∧
      (Kernel_bilateral_run (fun _ => (1 : ℚ)) cImg cOut 1 1 0 0).data 0 0 ≠
        (Kernel_bilateral_run (fun _ => (1 : ℚ)) cImg cOut 1 1 0 1).data
          0 0 := by
  constructor
  · by_cases hin : I1.inBounds x y
    · have hin2 : I2.inBounds x y := by
        refine ⟨?_, ?_⟩
        · rw [← hw]; exact hin.1
        · rw [← hh]; exact hin.2
      rw [Kernel_bilateralLimited_run_data_inBounds fexp I1 O1 gs gr minval
          dim hin,
        Kernel_bilateralLimited_run_data_inBounds fexp I2 O2 gs gr minval
          dim hin2]
      exact bilateralLimitedPixel_congr fexp I1 I2 gs gr minval dim hw hh
        hI hin.1 hin.2
    · have hin2 : ¬ I2.inBounds x y := by
        intro h2
        refine hin ⟨?_, ?_⟩
        · rw [hw]; exact h2.1
        · rw [hh]; exact h2.2
      rw [Kernel_bilateralLimited_run_data_out fexp I1 O1 gs gr minval dim
          hin,
        Kernel_bilateralLimited_run_data_out fexp I2 O2 gs gr minval dim
          hin2]
      exact hO x y
  · have h0 : (Kernel_bilateral_run (fun _ => (1 : ℚ)) cImg cOut 1 1 0
        0).data 0 0 = 0 :=
      Kernel_bilateral_run_data_inBounds (fun _ => 1) cImg cOut 1 1 0 0
        ⟨by norm_num [cImg], by norm_num [cImg]⟩
    have h1 : (Kernel_bilateral_run (fun _ => (1 : ℚ)) cImg cOut 1 1 0
        1).data 0 0 = 1 :=
      Kernel_bilateral_run_data_inBounds (fun _ => 1) cImg cOut 1 1 0 1
        ⟨by norm_num [cImg], by norm_num [cImg]⟩
    rw [h0, h1]
    norm_num

/-- Witness for C10 at concrete equal inputs. -/
theorem C10_determinism_witness :
    (Kernel_bilateralLimited_run (fun _ => (1 : ℚ)) cImg cOut 1 1 0
        1).data 0 0 =
        (Kernel_bilateralLimited_run (fun _ => (1 : ℚ)) cImg cOut 1 1 0
          1).data 0 0 ∧
      (Kernel_bilateral_run (fun _ => (1 : ℚ)) cImg cOut 1 1 0 0).data 0 0 ≠
        (Kernel_bilateral_run (fun _ => (1 : ℚ)) cImg cOut 1 1 0 1).data
          0 0 :=
  C10_determinism (fun _ => 1) cImg cImg cOut cOut 1 1 0 1 0 0 rfl rfl
    (fun _ _ _ _ => rfl) (fun _ _ => rfl)

end FiltersGPU
